import Mathlib

/-!
Verification of the custom-panels query helpers
(`public/components/custom_panels/helpers/utils.tsx`).

The regex-based string surgery of the source is embedded as executable
scanners over `List Char`.  JavaScript `String.prototype.match` /
`String.prototype.replace` with a non-global regex operate on the first
(leftmost) match; `findFirst` below reproduces that search strategy for a
given single-position matcher.  A matcher returns the matched substring
together with the remainder of the input after the match.
-/

/-- Whitespace as matched by the regex class used in the source patterns. -/
def isWS (c : Char) : Bool :=
  c = ' ' || c = '\t' || c = '\n' || c = '\r'

/-- Characters allowed in the index identifier of a source clause
(the regex class excludes whitespace and the pipe). -/
def isIdentChar (c : Char) : Bool :=
  !(isWS c) && (c != '|')

/-- Drop a literal pattern from the front of the input, or fail. -/
def dropLit : List Char → List Char → Option (List Char)
  | [], l => some l
  | _ :: _, [] => none
  | p :: ps, c :: cs => if p = c then dropLit ps cs else none

theorem dropLit_eq (p : List Char) :
    ∀ l r : List Char, dropLit p l = some r → l = p ++ r := by
  induction p with
  | nil =>
    intro l r h
    simp only [dropLit, Option.some.injEq] at h
    simp [h]
  | cons a as ih =>
    intro l r h
    cases l with
    | nil => simp [dropLit] at h
    | cons c cs =>
      simp only [dropLit] at h
      by_cases hac : a = c
      · rw [if_pos hac] at h
        have hcs := ih cs r h
        rw [hac, hcs]
        rfl
      · rw [if_neg hac] at h
        exact absurd h (by simp)

/-- Lazy scan of `(.*?)\)` in a JavaScript regex without the dot-all flag:
consume the shortest run of non-newline characters up to the first closing
parenthesis; fail if a newline or the end of input comes first. -/
def takeUntilRParen : List Char → Option (List Char × List Char)
  | [] => none
  | c :: cs =>
    if c = ')' then some ([], cs)
    else if c = '\n' then none
    else
      match takeUntilRParen cs with
      | none => none
      | some (a, b) => some (c :: a, b)

theorem takeUntilRParen_eq :
    ∀ l a b : List Char, takeUntilRParen l = some (a, b) → l = a ++ ')' :: b := by
  intro l
  induction l with
  | nil => intro a b h; simp [takeUntilRParen] at h
  | cons c cs ih =>
    intro a b h
    simp only [takeUntilRParen] at h
    by_cases hc : c = ')'
    · rw [if_pos hc] at h
      simp only [Option.some.injEq, Prod.mk.injEq] at h
      obtain ⟨ha, hb⟩ := h
      rw [← ha, ← hb, hc]
      rfl
    · rw [if_neg hc] at h
      by_cases hn : c = '\n'
      · rw [if_pos hn] at h
        exact absurd h (by simp)
      · rw [if_neg hn] at h
        cases hrec : takeUntilRParen cs with
        | none => rw [hrec] at h; exact absurd h (by simp)
        | some p =>
          obtain ⟨a2, b2⟩ := p
          rw [hrec] at h
          simp only [Option.some.injEq, Prod.mk.injEq] at h
          obtain ⟨ha, hb⟩ := h
          rw [← ha, ← hb]
          have := ih a2 b2 hrec
          rw [this]
          rfl

/-- One-position matcher for the source-clause pattern.

Modelled from the spec: the repository constant `PPL_INDEX_REGEX`
(`common/constants/shared`) is described as matching a
`source = <identifier>` form, where whitespace may surround the equals
sign and the identifier is a nonempty run of characters other than
whitespace and the pipe.  On success it returns the matched substring and
the remainder after it. -/
def matchSourceAt (l : List Char) : Option (List Char × List Char) :=
  match dropLit "source".data l with
  | none => none
  | some r1 =>
    match dropLit ['='] (r1.dropWhile isWS) with
    | none => none
    | some r3 =>
      if (r3.dropWhile isWS).takeWhile isIdentChar = [] then none
      else
        some ("source".data ++
          (r1.takeWhile isWS ++ '=' ::
            (r3.takeWhile isWS ++ (r3.dropWhile isWS).takeWhile isIdentChar)),
          (r3.dropWhile isWS).dropWhile isIdentChar)

theorem matchSourceAt_eq :
    ∀ l m r : List Char, matchSourceAt l = some (m, r) → l = m ++ r := by
  intro l m r h
  unfold matchSourceAt at h
  split at h
  · exact absurd h (by simp)
  next r1 h1 =>
    split at h
    · exact absurd h (by simp)
    next r3 h2 =>
      split at h
      · exact absurd h (by simp)
      next hid =>
        simp only [Option.some.injEq, Prod.mk.injEq] at h
        obtain ⟨hm, hr⟩ := h
        rw [← hm, ← hr]
        have e1 : l = "source".data ++ r1 := dropLit_eq _ _ _ h1
        have e2 : r1.dropWhile isWS = '=' :: r3 := by
          have := dropLit_eq _ _ _ h2
          simpa using this
        simp only [List.append_assoc, List.cons_append, List.singleton_append]
        rw [List.takeWhile_append_dropWhile isIdentChar (r3.dropWhile isWS)]
        rw [List.takeWhile_append_dropWhile isWS r3]
        rw [← e2]
        rw [List.takeWhile_append_dropWhile isWS r1]
        exact e1

/-- One-position matcher for the span directive regex built inline in
`updateQuerySpanInterval`:

`span\(\s*<timestampField>\s*,(.*?)\)`

The timestamp field is matched literally (the source interpolates it into
the regex; the fields used are plain identifiers without regex
metacharacters). -/
def matchSpanAt (field : List Char) (l : List Char) : Option (List Char × List Char) :=
  match dropLit "span(".data l with
  | none => none
  | some r1 =>
    match dropLit field (r1.dropWhile isWS) with
    | none => none
    | some r3 =>
      match dropLit [','] (r3.dropWhile isWS) with
      | none => none
      | some r5 =>
        match takeUntilRParen r5 with
        | none => none
        | some (interval, r6) =>
          some ("span(".data ++
            (r1.takeWhile isWS ++ (field ++
              (r3.takeWhile isWS ++ ',' :: (interval ++ [')'])))), r6)

theorem matchSpanAt_eq (field : List Char) :
    ∀ l m r : List Char, matchSpanAt field l = some (m, r) → l = m ++ r := by
  intro l m r h
  unfold matchSpanAt at h
  split at h
  · exact absurd h (by simp)
  next r1 h1 =>
    split at h
    · exact absurd h (by simp)
    next r3 h2 =>
      split at h
      · exact absurd h (by simp)
      next r5 h3 =>
        split at h
        · exact absurd h (by simp)
        next interval r6 h4 =>
          simp only [Option.some.injEq, Prod.mk.injEq] at h
          obtain ⟨hm, hr⟩ := h
          rw [← hm, ← hr]
          have e1 : l = "span(".data ++ r1 := dropLit_eq _ _ _ h1
          have e2 : r1.dropWhile isWS = field ++ r3 := dropLit_eq _ _ _ h2
          have e3 : r3.dropWhile isWS = ',' :: r5 := by
            have := dropLit_eq _ _ _ h3
            simpa using this
          have e4 : r5 = interval ++ ')' :: r6 := takeUntilRParen_eq _ _ _ h4
          simp only [List.append_assoc, List.cons_append, List.singleton_append,
            List.nil_append]
          rw [← e4, ← e3]
          rw [List.takeWhile_append_dropWhile isWS r3]
          rw [← e2]
          rw [List.takeWhile_append_dropWhile isWS r1]
          simpa using e1

/-- Leftmost-match search, as performed by a non-global, non-anchored
JavaScript regex: try the matcher at every position from the left and
return the text before the match, the match, and the remainder. -/
def findFirst (m : List Char → Option (List Char × List Char)) :
    List Char → Option (List Char × List Char × List Char)
  | [] =>
    match m [] with
    | some (mt, rest) => some ([], mt, rest)
    | none => none
  | c :: cs =>
    match m (c :: cs) with
    | some (mt, rest) => some ([], mt, rest)
    | none =>
      match findFirst m cs with
      | some (pre, mt, rest) => some (c :: pre, mt, rest)
      | none => none

theorem findFirst_sound (mf : List Char → Option (List Char × List Char))
    (hmf : ∀ l mt rest, mf l = some (mt, rest) → l = mt ++ rest) :
    ∀ l pre mt rest, findFirst mf l = some (pre, mt, rest) →
      l = pre ++ (mt ++ rest) ∧ mf (mt ++ rest) = some (mt, rest) := by
  intro l
  induction l with
  | nil =>
    intro pre mtc rst h
    simp only [findFirst] at h
    split at h
    next a b hm =>
      simp only [Option.some.injEq, Prod.mk.injEq] at h
      obtain ⟨hp, ha, hb⟩ := h
      rw [← hp, ← ha, ← hb]
      have e := hmf [] a b hm
      constructor
      · simpa using e
      · rw [← e]; exact hm
    next => exact absurd h (by simp)
  | cons c cs ih =>
    intro pre mtc rst h
    simp only [findFirst] at h
    split at h
    next a b hm =>
      simp only [Option.some.injEq, Prod.mk.injEq] at h
      obtain ⟨hp, ha, hb⟩ := h
      rw [← hp, ← ha, ← hb]
      have e := hmf _ a b hm
      constructor
      · simpa using e
      · rw [← e]; exact hm
    next hm =>
      split at h
      next pre2 a b hrec =>
        simp only [Option.some.injEq, Prod.mk.injEq] at h
        obtain ⟨hp, ha, hb⟩ := h
        rw [← hp, ← ha, ← hb]
        have e := ih pre2 a b hrec
        constructor
        · rw [List.cons_append, ← e.1]
        · exact e.2
      next => exact absurd h (by simp)

/-!
String-level embedding of the helper functions.  Strings are Lean
`String`s; a `String` is its list of characters (`String.data`).
-/

/-- A single-quote character as a string (used when assembling the
`where` clause, whose timestamp bounds are quoted in the source). -/
def sQuote : String := "\x27"

/-- Modelled from the spec: the external `@elastic/datemath` resolver and
the fixed-layout UTC rendering (`moment.utc().format(PPL_DATE_FORMAT)`,
where `PPL_DATE_FORMAT` lives in `common/constants/shared`, outside the
sources).  `parse s roundUp` resolves a date-math expression to an
absolute instant (epoch-based integer) or fails; `utcFormat` renders an
instant in the fixed UTC layout. -/
structure DateMath where
  parse : String → Bool → Option Int
  utcFormat : Int → String

/-- `convertDateTime` (utils.tsx:54): resolves with `roundUp` exactly
when `isStart` is false, then formats.  The source dereferences the
parse result through a non-null assertion (`returnTime!`); a failed
parse therefore throws, modelled as `Except.error`. -/
def convertDateTime (dm : DateMath) (datetime : String) (isStart : Bool) :
    Except String String :=
  match (if isStart then dm.parse datetime false else dm.parse datetime true) with
  | none => Except.error "TypeError"
  | some t => Except.ok (dm.utcFormat t)

/-- `queryAccumulator` (utils.tsx:117): splits the query at the first
source-clause match (`match` and `replace` with the same non-global
regex), throws when there is no match, and otherwise reassembles
`indexPartOfQuery + timeQueryFilter + pplFilterQuery + filterPartOfQuery`. -/
def queryAccumulator (originalQuery timestampField startTime endTime
    panelFilterQuery : String) (dm : DateMath) : Except String String :=
  match findFirst matchSourceAt originalQuery.data with
  | none => Except.error "index not found in Query"
  | some (pre, m, rest) =>
    match convertDateTime dm startTime true with
    | Except.error e => Except.error e
    | Except.ok fs =>
      match convertDateTime dm endTime false with
      | Except.error e => Except.error e
      | Except.ok fe =>
        Except.ok (String.mk m ++
          (" | where " ++ timestampField ++ " >= " ++ sQuote ++ fs ++ sQuote ++
            " and " ++ timestampField ++ " <= " ++ sQuote ++ fe ++ sQuote) ++
          (if panelFilterQuery = "" then "" else " | " ++ panelFilterQuery) ++
          String.mk (pre ++ rest))

/-- Externally visible outcome of `getQueryResponse` (utils.tsx:196):
the final value of the loading flag after the synchronous part, the
error message reported (if any), and the query shipped to the PPL
service (if any). -/
structure QueryResponseEffect where
  isLoading : Bool
  errorMessage : Option String
  pplRequest : Option String
deriving DecidableEq

/-- `getQueryResponse` (utils.tsx:196): builds the final query inside a
try/catch; on failure it reports the build-failure message, resets the
loading flag and returns without calling the PPL service; on success it
hands the final query to `pplServiceRequestor` (the loading flag is then
cleared only by that asynchronous requestor). -/
def getQueryResponse (dm : DateMath) (query startTime endTime filterQuery
    timestampField : String) : QueryResponseEffect :=
  match queryAccumulator query timestampField startTime endTime filterQuery dm with
  | Except.error _ =>
    { isLoading := false
      errorMessage := some "Issue in building final query"
      pplRequest := none }
  | Except.ok finalQuery =>
    { isLoading := true
      errorMessage := none
      pplRequest := some finalQuery }

/-- The replacement text `span(<timestampField>,<spanParam>)` used by
`updateQuerySpanInterval`. -/
def spanReplacement (timestampField spanParam : String) : List Char :=
  "span(".data ++ (timestampField.data ++ ',' :: (spanParam.data ++ [')']))

/-- `updateQuerySpanInterval` (utils.tsx:97): `String.prototype.replace`
with a non-global regex — replace the leftmost match of the span
directive, or return the query unchanged when there is no match. -/
def updateQuerySpanInterval (query timestampField spanParam : String) : String :=
  match findFirst (matchSpanAt timestampField.data) query.data with
  | none => query
  | some (pre, _, rest) =>
    String.mk (pre ++ (spanReplacement timestampField spanParam ++ rest))

/-- `checkIndexExists` (utils.tsx:435): `PPL_INDEX_REGEX.test(query)`. -/
def checkIndexExists (query : String) : Bool :=
  (findFirst matchSourceAt query.data).isSome

/-- Modelled from the spec: the repository constant
`PPL_WHERE_CLAUSE_REGEX` (`common/constants/shared`) is described as
requiring the filter to begin with a `where` keyword; `checkWhereClauseExists`
(utils.tsx:440) tests the query against it. -/
def checkWhereClauseExists (query : String) : Bool :=
  (dropLit "where".data (query.data.dropWhile isWS)).isSome

/-- `isPPLFilterValid` (utils.tsx:446): rejects (with a toast message)
a filter containing a source clause, then a nonempty filter lacking a
leading where clause; accepts otherwise.  Result is the returned Bool
together with the toast message, if one was raised. -/
def isPPLFilterValid (query : String) : Bool × Option String :=
  if checkIndexExists query then
    (false, some "Please remove index from PPL Filter")
  else if (query != "") && (!(checkWhereClauseExists query)) then
    (false, some "PPL filters should start with a where clause")
  else
    (true, none)

/-- `isDateValid` (utils.tsx:417) over resolved instants (epoch-based
integers): invalid, with a toast, exactly when the end precedes the
start. -/
def isDateValid (startDate endDate : Int) : Bool × Option String :=
  if endDate < startDate then (false, some "Time range entered is invalid")
  else (true, none)

/-- An item of the react-grid-layout `Layout` array: grid id plus
coordinates. -/
structure Layout where
  i : String
  x : Int
  y : Int
  w : Int
  h : Int
deriving DecidableEq

/-- A panel visualization: its id, its grid coordinates, and (as an
abstract payload) every other field of the record. -/
structure VisualizationType (α : Type) where
  id : String
  x : Int
  y : Int
  w : Int
  h : Int
  extra : α
deriving DecidableEq

/-- Inner loop of `mergeLayoutAndVisualizations` (utils.tsx:75): for one
visualization, walk the layout array and push an updated copy for every
layout item with a matching id. -/
def mergeInner {α : Type} (v : VisualizationType α) :
    List Layout → List (VisualizationType α)
  | [] => []
  | l :: ls =>
    if v.id = l.i then
      { v with x := l.x, y := l.y, w := l.w, h := l.h } :: mergeInner v ls
    else mergeInner v ls

/-- `mergeLayoutAndVisualizations` (utils.tsx:67): the nested loops that
build the list handed to `setPanelVisualizations` (the setter simply
receives this list, so the function returns it here). -/
def mergeLayoutAndVisualizations {α : Type} (layout : List Layout) :
    List (VisualizationType α) → List (VisualizationType α)
  | [] => []
  | v :: vs => mergeInner v layout ++ mergeLayoutAndVisualizations layout vs

/-- Concrete date-math interpretations used to instantiate theorems with
hypotheses: one that always resolves, one that never does. -/
def dmFixed : DateMath :=
  { parse := fun _ _ => some 0
    utcFormat := fun _ => "2024-01-01 00:00:00" }

def dmNone : DateMath :=
  { parse := fun _ _ => none
    utcFormat := fun _ => "" }

/-- Shared reduction: a successful run of `queryAccumulator` reassembles
the matched source clause, the synthesized time filter, the optional
panel filter and the remainder of the original query. -/
theorem queryAccumulator_ok (q ts st et pf : String) (dm : DateMath)
    (pre m rest : List Char) (fs fe : String)
    (hq : findFirst matchSourceAt q.data = some (pre, m, rest))
    (hs : convertDateTime dm st true = Except.ok fs)
    (he : convertDateTime dm et false = Except.ok fe) :
    queryAccumulator q ts st et pf dm =
      Except.ok (String.mk m ++
        (" | where " ++ ts ++ " >= " ++ sQuote ++ fs ++ sQuote ++
          " and " ++ ts ++ " <= " ++ sQuote ++ fe ++ sQuote) ++
        (if pf = "" then "" else " | " ++ pf) ++
        String.mk (pre ++ rest)) := by
  unfold queryAccumulator
  rw [hq, hs, he]

/-- Claim C1: whenever the source-clause pattern matches, the
accumulated query is the matched source clause, then the time filter,
then ` | <panelFilterQuery>` exactly when the panel filter is nonempty,
then the original query with the matched substring removed and nothing
else changed. -/
theorem claim_C1 (q ts st et pf : String) (dm : DateMath)
    (pre m rest : List Char) (fs fe : String)
    (hq : findFirst matchSourceAt q.data = some (pre, m, rest))
    (hs : convertDateTime dm st true = Except.ok fs)
    (he : convertDateTime dm et false = Except.ok fe) :
    queryAccumulator q ts st et pf dm =
      Except.ok (String.mk m ++
        (" | where " ++ ts ++ " >= " ++ sQuote ++ fs ++ sQuote ++
          " and " ++ ts ++ " <= " ++ sQuote ++ fe ++ sQuote) ++
        (if pf = "" then "" else " | " ++ pf) ++
        String.mk (pre ++ rest))
    ∧ q = String.mk (pre ++ (m ++ rest)) := by
  refine ⟨queryAccumulator_ok q ts st et pf dm pre m rest fs fe hq hs he, ?_⟩
  have e := (findFirst_sound matchSourceAt matchSourceAt_eq q.data pre m rest hq).1
  rw [← e]

theorem claim_C1_witness :
    queryAccumulator "source=flights | stats count()" "timestamp" "now-1d"
        "now" "where x > 1" dmFixed =
      Except.ok (String.mk "source=flights".data ++
        (" | where " ++ "timestamp" ++ " >= " ++ sQuote ++
          "2024-01-01 00:00:00" ++ sQuote ++
          " and " ++ "timestamp" ++ " <= " ++ sQuote ++
          "2024-01-01 00:00:00" ++ sQuote) ++
        (if "where x > 1" = "" then "" else " | " ++ "where x > 1") ++
        String.mk ([] ++ " | stats count()".data))
    ∧ "source=flights | stats count()" =
      String.mk ([] ++ ("source=flights".data ++ " | stats count()".data)) :=
  claim_C1 "source=flights | stats count()" "timestamp" "now-1d" "now"
    "where x > 1" dmFixed [] "source=flights".data " | stats count()".data
    "2024-01-01 00:00:00" "2024-01-01 00:00:00" (by decide) rfl rfl

/-- Claim C2: when the source-clause pattern does not match,
`queryAccumulator` fails with the index-not-found error, and
`getQueryResponse` reports the build-failure message, resets the
loading flag and issues no PPL request. -/
theorem claim_C2 (q ts st et pf : String) (dm : DateMath)
    (h : findFirst matchSourceAt q.data = none) :
    queryAccumulator q ts st et pf dm = Except.error "index not found in Query"
    ∧ getQueryResponse dm q st et pf ts =
      { isLoading := false
        errorMessage := some "Issue in building final query"
        pplRequest := none } := by
  have h1 : queryAccumulator q ts st et pf dm =
      Except.error "index not found in Query" := by
    unfold queryAccumulator
    rw [h]
  refine ⟨h1, ?_⟩
  unfold getQueryResponse
  rw [h1]

theorem claim_C2_witness :
    queryAccumulator "| stats count()" "timestamp" "now-1d" "now" "" dmFixed =
      Except.error "index not found in Query"
    ∧ getQueryResponse dmFixed "| stats count()" "now-1d" "now" "" "timestamp" =
      { isLoading := false
        errorMessage := some "Issue in building final query"
        pplRequest := none } :=
  claim_C2 "| stats count()" "timestamp" "now-1d" "now" "" dmFixed (by decide)

/-- Claim C3: on a successful run the synthesized time filter is exactly
` | where <ts> >= '<formattedStart>' and <ts> <= '<formattedEnd>'`, where
the start bound is the formatting of the instant resolved without
rounding (`roundUp = false`) and the end bound is the formatting of the
instant resolved with round-up (`roundUp = true`), both rendered by the
fixed UTC formatter. -/
theorem claim_C3 (q ts st et pf : String) (dm : DateMath)
    (pre m rest : List Char) (ms me : Int)
    (hq : findFirst matchSourceAt q.data = some (pre, m, rest))
    (hs : dm.parse st false = some ms)
    (he : dm.parse et true = some me) :
    convertDateTime dm st true = Except.ok (dm.utcFormat ms)
    ∧ convertDateTime dm et false = Except.ok (dm.utcFormat me)
    ∧ queryAccumulator q ts st et pf dm =
      Except.ok (String.mk m ++
        (" | where " ++ ts ++ " >= " ++ sQuote ++ dm.utcFormat ms ++ sQuote ++
          " and " ++ ts ++ " <= " ++ sQuote ++ dm.utcFormat me ++ sQuote) ++
        (if pf = "" then "" else " | " ++ pf) ++
        String.mk (pre ++ rest)) := by
  have c1 : convertDateTime dm st true = Except.ok (dm.utcFormat ms) := by
    simp [convertDateTime, hs]
  have c2 : convertDateTime dm et false = Except.ok (dm.utcFormat me) := by
    simp [convertDateTime, he]
  exact ⟨c1, c2,
    queryAccumulator_ok q ts st et pf dm pre m rest _ _ hq c1 c2⟩

theorem claim_C3_witness :
    convertDateTime dmFixed "now-1d" true = Except.ok (dmFixed.utcFormat 0)
    ∧ convertDateTime dmFixed "now" false = Except.ok (dmFixed.utcFormat 0)
    ∧ queryAccumulator "source=logs | fields x" "utc_time" "now-1d" "now" ""
        dmFixed =
      Except.ok (String.mk "source=logs".data ++
        (" | where " ++ "utc_time" ++ " >= " ++ sQuote ++
          dmFixed.utcFormat 0 ++ sQuote ++
          " and " ++ "utc_time" ++ " <= " ++ sQuote ++
          dmFixed.utcFormat 0 ++ sQuote) ++
        (if "" = "" then "" else " | " ++ "") ++
        String.mk ([] ++ " | fields x".data)) :=
  claim_C3 "source=logs | fields x" "utc_time" "now-1d" "now" "" dmFixed
    [] "source=logs".data " | fields x".data 0 0 (by decide) rfl rfl

/-- Claim C9: `queryAccumulator` is not total — if the date-math
resolution of the start bound (no round-up) or of the end bound
(round-up) fails, the non-null assertion inside `convertDateTime`
throws even though the source clause matched, and `getQueryResponse`
handles this in the same catch branch as the missing-source error:
build-failure message, loading reset, no PPL request. -/
theorem claim_C9 (q ts st et pf : String) (dm : DateMath)
    (pre m rest : List Char)
    (hq : findFirst matchSourceAt q.data = some (pre, m, rest))
    (hfail : dm.parse st false = none ∨ dm.parse et true = none) :
    queryAccumulator q ts st et pf dm = Except.error "TypeError"
    ∧ getQueryResponse dm q st et pf ts =
      { isLoading := false
        errorMessage := some "Issue in building final query"
        pplRequest := none } := by
  have h1 : queryAccumulator q ts st et pf dm = Except.error "TypeError" := by
    unfold queryAccumulator
    rw [hq]
    rcases hfail with hf | hf
    · have hcs : convertDateTime dm st true = Except.error "TypeError" := by
        simp [convertDateTime, hf]
      rw [hcs]
    · cases h2 : dm.parse st false with
      | none =>
        have hcs : convertDateTime dm st true = Except.error "TypeError" := by
          simp [convertDateTime, h2]
        rw [hcs]
      | some t =>
        have hcs : convertDateTime dm st true = Except.ok (dm.utcFormat t) := by
          simp [convertDateTime, h2]
        have hce : convertDateTime dm et false = Except.error "TypeError" := by
          simp [convertDateTime, hf]
        rw [hcs, hce]
  refine ⟨h1, ?_⟩
  unfold getQueryResponse
  rw [h1]

theorem claim_C9_witness :
    queryAccumulator "source=a | stats count()" "timestamp" "not-a-date"
        "now" "" dmNone = Except.error "TypeError"
    ∧ getQueryResponse dmNone "source=a | stats count()" "not-a-date" "now"
        "" "timestamp" =
      { isLoading := false
        errorMessage := some "Issue in building final query"
        pplRequest := none } :=
  claim_C9 "source=a | stats count()" "timestamp" "not-a-date" "now" ""
    dmNone [] "source=a".data " | stats count()".data (by decide) (Or.inl rfl)

/-- Claim C4, counterexample: the whitespace tolerated around the comma
of a span directive is not preserved.  With a space before the comma the
whole matched directive is rewritten to the canonical
`span(timestamp,1M)` form, so a character outside `<oldInterval>` (the
space) is touched, contrary to the claim. -/
theorem claim_C4_counterexample :
    updateQuerySpanInterval "source=a | stats avg(x) by span(timestamp ,1d)"
        "timestamp" "1M" =
      "source=a | stats avg(x) by span(timestamp,1M)"
    ∧ "source=a | stats avg(x) by span(timestamp,1M)" ≠
      "source=a | stats avg(x) by span(timestamp ,1M)" := by
  constructor
  · decide
  · decide

/-- Claim C4, amended: `updateQuerySpanInterval` replaces the leftmost
matched directive wholesale with `span(<timestampField>,<spanParam>)`,
leaving every character before and after the matched directive
untouched; when the directive contains no whitespace this coincides
with replacing exactly `<oldInterval>` (in particular the `1d` → `1M`
example holds). -/
theorem claim_C4 (q f s : String) (pre m rest : List Char)
    (h : findFirst (matchSpanAt f.data) q.data = some (pre, m, rest)) :
    updateQuerySpanInterval q f s =
      String.mk (pre ++ (spanReplacement f s ++ rest))
    ∧ q = String.mk (pre ++ (m ++ rest)) := by
  constructor
  · unfold updateQuerySpanInterval
    rw [h]
  · have e := (findFirst_sound (matchSpanAt f.data) (matchSpanAt_eq f.data)
      q.data pre m rest h).1
    rw [← e]

theorem claim_C4_witness :
    updateQuerySpanInterval "source=a | stats avg(x) by span(timestamp,1d)"
        "timestamp" "1M" =
      String.mk ("source=a | stats avg(x) by ".data ++
        (spanReplacement "timestamp" "1M" ++ []))
    ∧ "source=a | stats avg(x) by span(timestamp,1d)" =
      String.mk ("source=a | stats avg(x) by ".data ++
        ("span(timestamp,1d)".data ++ [])) :=
  claim_C4 "source=a | stats avg(x) by span(timestamp,1d)" "timestamp" "1M"
    "source=a | stats avg(x) by ".data "span(timestamp,1d)".data []
    (by decide)

/-- Claim C5: when no span directive for the given timestamp field
matches anywhere in the query, `updateQuerySpanInterval` is the
identity (and raises no error — it is a total function). -/
theorem claim_C5 (q f s : String)
    (h : findFirst (matchSpanAt f.data) q.data = none) :
    updateQuerySpanInterval q f s = q := by
  unfold updateQuerySpanInterval
  rw [h]

theorem claim_C5_witness :
    updateQuerySpanInterval "source=a | stats count()" "timestamp" "1M" =
      "source=a | stats count()" :=
  claim_C5 "source=a | stats count()" "timestamp" "1M" (by decide)

/-- Claim C6: with two or more span directives for the field, only the
leftmost is rewritten (the regex carries no global flag): any later
directive, here the one matched inside the remainder, reappears
verbatim in the output. -/
theorem claim_C6 (q f s : String) (pre m rest pre2 m2 rest2 : List Char)
    (h1 : findFirst (matchSpanAt f.data) q.data = some (pre, m, rest))
    (h2 : findFirst (matchSpanAt f.data) rest = some (pre2, m2, rest2)) :
    updateQuerySpanInterval q f s =
      String.mk (pre ++ (spanReplacement f s ++ (pre2 ++ (m2 ++ rest2))))
    ∧ matchSpanAt f.data (m2 ++ rest2) = some (m2, rest2) := by
  have e := findFirst_sound (matchSpanAt f.data) (matchSpanAt_eq f.data)
    rest pre2 m2 rest2 h2
  constructor
  · unfold updateQuerySpanInterval
    rw [h1, e.1]
  · exact e.2

theorem claim_C6_witness :
    updateQuerySpanInterval
        "source=a | stats avg(x) by span(timestamp,1d) | span(timestamp,2h)"
        "timestamp" "5m" =
      String.mk ("source=a | stats avg(x) by ".data ++
        (spanReplacement "timestamp" "5m" ++
          (" | ".data ++ ("span(timestamp,2h)".data ++ []))))
    ∧ matchSpanAt "timestamp".data ("span(timestamp,2h)".data ++ []) =
      some ("span(timestamp,2h)".data, []) :=
  claim_C6
    "source=a | stats avg(x) by span(timestamp,1d) | span(timestamp,2h)"
    "timestamp" "5m"
    "source=a | stats avg(x) by ".data "span(timestamp,1d)".data
    " | span(timestamp,2h)".data
    " | ".data "span(timestamp,2h)".data []
    (by decide) (by decide)

/-- Claim C7: the filter validator returns false (with a toast) for any
string containing a source clause, false (with a toast) for any nonempty
string lacking a leading where clause, and true otherwise; in
particular it rejects `source=b | where x=1` and accepts `where x=1`. -/
theorem claim_C7 (q : String) :
    ((isPPLFilterValid q).fst = true ↔
      (checkIndexExists q = false ∧ (q = "" ∨ checkWhereClauseExists q = true)))
    ∧ ((isPPLFilterValid q).fst = false → (isPPLFilterValid q).snd ≠ none)
    ∧ isPPLFilterValid "source=b | where x=1" =
      (false, some "Please remove index from PPL Filter")
    ∧ isPPLFilterValid "where x=1" = (true, none) := by
  refine ⟨?_, ?_, by decide, by decide⟩
  · unfold isPPLFilterValid
    by_cases h1 : checkIndexExists q
    · simp [h1]
    · by_cases h2 : q = ""
      · subst h2
        simp [h1]
      · by_cases h3 : checkWhereClauseExists q
        · simp [h1, h2, h3]
        · simp [h1, h2, h3]
  · unfold isPPLFilterValid
    by_cases h1 : checkIndexExists q
    · simp [h1]
    · by_cases h2 : q = ""
      · subst h2
        simp [h1]
      · by_cases h3 : checkWhereClauseExists q
        · simp [h1, h2, h3]
        · simp [h1, h2, h3]

theorem claim_C7_witness :
    ((isPPLFilterValid "where y=2").fst = true ↔
      (checkIndexExists "where y=2" = false ∧
        ("where y=2" = "" ∨ checkWhereClauseExists "where y=2" = true)))
    ∧ ((isPPLFilterValid "where y=2").fst = false →
      (isPPLFilterValid "where y=2").snd ≠ none)
    ∧ isPPLFilterValid "source=b | where x=1" =
      (false, some "Please remove index from PPL Filter")
    ∧ isPPLFilterValid "where x=1" = (true, none) :=
  claim_C7 "where y=2"

/-- Claim C8: over resolved instants the date-range validator accepts
exactly when the end does not precede the start, and on rejection it
raises the invalid-time-range toast. -/
theorem claim_C8 (startDate endDate : Int) :
    ((isDateValid startDate endDate).fst = true ↔ startDate ≤ endDate)
    ∧ ((isDateValid startDate endDate).fst = false →
      isDateValid startDate endDate =
        (false, some "Time range entered is invalid")) := by
  unfold isDateValid
  by_cases h : endDate < startDate
  · rw [if_pos h]
    refine ⟨⟨fun hh => absurd hh (by simp), fun hh => absurd hh (by omega)⟩, ?_⟩
    intro _
    rfl
  · rw [if_neg h]
    refine ⟨⟨fun _ => by omega, fun _ => rfl⟩, ?_⟩
    intro hh
    exact absurd hh (by simp)

theorem claim_C8_witness :
    ((isDateValid 3 7).fst = true ↔ (3 : Int) ≤ 7)
    ∧ ((isDateValid 3 7).fst = false →
      isDateValid 3 7 = (false, some "Time range entered is invalid")) :=
  claim_C8 3 7

/-- Auxiliary: the inner layout loop is a filter-then-map over the
layout array. -/
theorem mergeInner_eq {α : Type} (v : VisualizationType α)
    (layout : List Layout) :
    mergeInner v layout =
      (layout.filter (fun l => v.id == l.i)).map
        (fun l => { v with x := l.x, y := l.y, w := l.w, h := l.h }) := by
  induction layout with
  | nil => rfl
  | cons l ls ih =>
    by_cases h : v.id = l.i
    · simp [mergeInner, List.filter_cons, h, ih]
    · simp [mergeInner, List.filter_cons, h, ih]

/-- Claim C10: the nested merge loops produce, in visualization-list
order, one updated copy per (visualization, layout item) pair with equal
ids — the copy takes x, y, w, h from the layout item and keeps every
other field — and visualizations without a matching layout id are
dropped (several matches yield several copies). -/
theorem claim_C10 {α : Type} (layout : List Layout)
    (vis : List (VisualizationType α)) :
    mergeLayoutAndVisualizations layout vis =
      vis.flatMap (fun v =>
        (layout.filter (fun l => v.id == l.i)).map
          (fun l => { v with x := l.x, y := l.y, w := l.w, h := l.h })) := by
  induction vis with
  | nil => rfl
  | cons v vs ih =>
    simp [mergeLayoutAndVisualizations, mergeInner_eq, ih]
